/-
Formal model of the TinyCandle firmware (src/software/sources/main.c), a
tealight-candle simulation for the ATtiny13.  Machine integers are modelled
over Nat / Int with explicit reduction modulo 2^8 / 2^16 / 2^32 at the points
where the C program computes in uint8_t / int16_t / uint16_t / uint32_t.  On
AVR, int is 16 bits wide, so all intermediate int arithmetic wraps modulo
2^16; signed right shift is arithmetic (flooring).
-/
import Mathlib

namespace TinyCandle

/-- candle simulation parameters, main.c lines 43-47. -/
def MINUNCALM : Nat := 20 * 256

/-- most uncalm value of the agitation oscillation, main.c line 44. -/
def MAXUNCALM : Nat := 120 * 256

/-- agitation increment per tick, main.c line 45 (an int16_t value). -/
def UNCALMINC : Int := 20

/-- maximal deviation of the flame center, main.c line 46. -/
def MAXDEV : Int := 100

/-- Reinterpretation of an integer as a 16-bit twos-complement value: the
unique representative of x modulo 2^16 lying in [-32768, 32768).  This models
the wraparound of int16_t arithmetic on AVR. -/
def i16 (x : Int) : Int := (x + 32768) % 65536 - 32768

/-- Unsigned 16-bit addition of a uint16_t and an int16_t, wrapping modulo
2^16; models the statement uncalm += uncalmdir of main.c line 82. -/
def u16add (u : Nat) (d : Int) : Nat := (((u : Int) + d) % 65536).toNat

/-- Arithmetic right shift by two of an int16_t value (xvel >> 2 in main.c
line 85); avr-gcc shifts negative values arithmetically, which is flooring
division by 4. -/
def sar2 (v : Int) : Int := Int.fdiv v 4

/-- One Galois LFSR update of the random register, main.c line 64:
rn = (rn >> 1) ^ (-(rn & 1) & 0xB400).  In 16-bit unsigned arithmetic the
mask -(rn & 1) & 0xB400 equals 0xB400 when the shifted-out bit rn & 1 was 1
and equals 0 otherwise. -/
def lfsrNext (rn : Nat) : Nat :=
  (rn >>> 1) ^^^ (if rn &&& 1 = 1 then 0xB400 else 0)

/-- The pseudo random number generator, main.c lines 63-66.  Arguments are
the bound maxvalue (a uint32_t) and the current register rn (a uint16_t);
the result is the pair of the returned value and the updated register.  The
register is advanced first; the product maxvalue * rn is a 32-bit unsigned
multiplication (wrapping modulo 2^32), shifted right 16 bits and truncated
to uint16_t on return. -/
def prng (maxvalue rn : Nat) : Nat × Nat :=
  let rn2 := lfsrNext rn
  (((maxvalue * rn2 % 4294967296) >>> 16) % 65536, rn2)

/-- The mutable simulation state of main.c lines 50-60: flame position and
velocity (int16_t), agitation uncalm (uint16_t) and its direction (int16_t),
tick counter cnt (uint8_t), random register rn (uint16_t), and the two PWM
compare registers OCR0A / OCR0B (uint8_t) receiving the duty values. -/
structure CandleState where
  centerx : Int
  centery : Int
  xvel : Int
  yvel : Int
  uncalm : Nat
  uncalmdir : Int
  cnt : Nat
  rn : Nat
  ocr0a : Nat
  ocr0b : Nat

/-- Initial values of the simulation variables, main.c lines 51-60.  The
file-scope variable rn carries no initializer and is therefore
zero-initialized; OCR0A / OCR0B reset to 0. -/
def initState : CandleState where
  centerx := MAXDEV
  centery := MAXDEV / 2
  xvel := 0
  yvel := 0
  uncalm := MINUNCALM
  uncalmdir := UNCALMINC
  cnt := 0
  rn := 0
  ocr0a := 0
  ocr0b := 0

/-- Saturating clamp of one flame-center coordinate to [-MAXDEV, MAXDEV]:
the pair of range-limit ifs of main.c lines 89-90 (and 91-92). -/
def clampDev (v : Int) : Int :=
  let v1 := if v < -MAXDEV then -MAXDEV else v
  if v1 > MAXDEV then MAXDEV else v1

/-- The velocity attenuation expression (xvel * 999) / 1000 of main.c lines
98-99, computed in 16-bit int arithmetic: the product wraps modulo 2^16 and
the division by 1000 truncates toward zero (C semantics). -/
def dampVal (v : Int) : Int := Int.tdiv (i16 (v * 999)) 1000

/-- One candle simulation step, updateCandle of main.c lines 69-109,
translated statement by statement: the two sequential prng pokes, the
agitation oscillation, the position integration, the range clamps, the tick
counter and the every-fourth-tick velocity attenuation, the spring
acceleration toward the center, and the duty outputs to OCR0A / OCR0B. -/
def updateCandle (s : CandleState) : CandleState :=
  let r1 := prng (s.uncalm >>> 8) s.rn
  let movx := i16 ((r1.1 : Int) - ((s.uncalm >>> 9 : Nat) : Int))
  let r2 := prng (s.uncalm >>> 8) r1.2
  let movy := i16 ((r2.1 : Int) - ((s.uncalm >>> 9 : Nat) : Int))
  let dir1 := if s.uncalm < MINUNCALM then UNCALMINC else s.uncalmdir
  let dir2 := if s.uncalm > MAXUNCALM then -UNCALMINC else dir1
  let uncalm2 := u16add s.uncalm dir2
  let cx := clampDev (i16 (s.centerx + (movx + sar2 s.xvel)))
  let cy := clampDev (i16 (s.centery + (movy + sar2 s.yvel)))
  let cnt2 := (s.cnt + 1) % 256
  let xv1 := if cnt2 &&& 3 = 0 then dampVal s.xvel else s.xvel
  let yv1 := if cnt2 &&& 3 = 0 then dampVal s.yvel else s.yvel
  let xv2 := i16 (xv1 - cx)
  let yv2 := i16 (yv1 - cy)
  { centerx := cx, centery := cy, xvel := xv2, yvel := yv2,
    uncalm := uncalm2, uncalmdir := dir2, cnt := cnt2, rn := r2.2,
    ocr0a := ((155 + cx) % 256).toNat, ocr0b := ((155 + cy) % 256).toNat }

/-- Iterate the simulation step n times: n passes through the main loop of
main.c lines 142-159 with the button unpressed. -/
def steps : Nat → CandleState → CandleState
  | 0, s => s
  | n + 1, s => steps n (updateCandle s)

/-- The sequence of (OCR0A, OCR0B) duty pairs emitted by n simulation
steps. -/
def dutyTrace : Nat → CandleState → List (Nat × Nat)
  | 0, _ => []
  | n + 1, s =>
    ((updateCandle s).ocr0a, (updateCandle s).ocr0b) :: dutyTrace n (updateCandle s)

/-- The agitation component of one simulation step (main.c lines 78-82)
taken on its own: it depends only on the pair (uncalm, uncalmdir). -/
def uncalmStep (p : Nat × Int) : Nat × Int :=
  let d1 := if p.1 < MINUNCALM then UNCALMINC else p.2
  let d2 := if p.1 > MAXUNCALM then -UNCALMINC else d1
  (u16add p.1 d2, d2)

/-- Iterated agitation component. -/
def uncalmIter : Nat → Nat × Int → Nat × Int
  | 0, p => p
  | n + 1, p => uncalmIter n (uncalmStep p)

/-- Inductive invariant of the agitation oscillation: the direction is one
of the two increments and the agitation lies within one increment of the
[MINUNCALM, MAXUNCALM] band. -/
def UncalmInv (p : Nat × Int) : Prop :=
  (p.2 = UNCALMINC ∨ p.2 = -UNCALMINC) ∧
  MINUNCALM - 20 ≤ p.1 ∧ p.1 ≤ MAXUNCALM + 20

/-- Hardware-facing machine state for the power controller: the simulation
state plus the I/O registers written by the button branch of the main loop
(main.c lines 145-156) and the MCU control state touched by the sleep
routine (main.c lines 112-122).  The debounce delays and button-release
loops only read PINB and change no state, and the pin change ISR of line
163 is empty. -/
structure Device where
  sim : CandleState
  ddrb : Nat
  portb : Nat
  gifr : Nat
  sleepModePwrDown : Bool
  powered : Bool
  intFlag : Bool
  sleepEnabled : Bool

/-- The sleep routine of main.c lines 112-122: sets the power-down sleep
mode, clears outstanding pin change flags in GIFR, powers peripherals off,
clears and re-enables the global interrupt flag around sleep_enable, halts
until the pin-change wakeup (the empty ISR of line 163 only ends the halt),
then disables sleep and powers peripherals back on.  None of the simulation
variables is touched. -/
def sleep (d : Device) : Device :=
  let d1 := { d with sleepModePwrDown := true }
  let d2 := { d1 with gifr := d1.gifr ||| (1 <<< 5) }
  let d3 := { d2 with powered := false }
  let d4 := { d3 with intFlag := false }
  let d5 := { d4 with sleepEnabled := true }
  let d6 := { d5 with intFlag := true }
  let d7 := { d6 with sleepEnabled := false }
  { d7 with powered := true }

/-- The button branch of the main loop, main.c lines 145-156: LED pins to
input (PWM off), MOSFET off, debounce and wait for release (state-free busy
waits on PINB), sleep, LED pins back to output, MOSFET on, debounce and
wait for release again. -/
def buttonBranch (d : Device) : Device :=
  let d1 := { d with ddrb := 1 <<< 4 }
  let d2 := { d1 with portb := d1.portb &&& (255 ^^^ (1 <<< 4)) }
  let d3 := sleep d2
  let d4 := { d3 with ddrb := (1 <<< 0) ||| (1 <<< 1) ||| (1 <<< 4) }
  { d4 with portb := d4.portb ||| (1 <<< 4) }

/-- i16 is the identity on values already in the int16_t range. -/
theorem i16_eq_self {x : Int} (h1 : -32768 ≤ x) (h2 : x < 32768) : i16 x = x := by
  unfold i16
  omega

/-- The clamped coordinate always lies in [-MAXDEV, MAXDEV]. -/
theorem clampDev_mem (v : Int) : -MAXDEV ≤ clampDev v ∧ clampDev v ≤ MAXDEV := by
  simp only [clampDev, MAXDEV]
  split_ifs <;> omega

/-- Saturation of the clamp from above. -/
theorem clampDev_high {v : Int} (h : MAXDEV < v) : clampDev v = MAXDEV := by
  simp only [clampDev, MAXDEV] at *
  split_ifs <;> omega

/-- Saturation of the clamp from below. -/
theorem clampDev_low {v : Int} (h : v < -MAXDEV) : clampDev v = -MAXDEV := by
  simp only [clampDev, MAXDEV] at *
  split_ifs <;> omega

/-- The LFSR update keeps the register inside 16 bits. -/
theorem lfsrNext_lt {rn : Nat} (h : rn < 65536) : lfsrNext rn < 65536 := by
  unfold lfsrNext
  have h1 : rn >>> 1 < 2 ^ 16 := by
    rw [Nat.shiftRight_eq_div_pow]
    omega
  have h2 : (if rn &&& 1 = 1 then 0xB400 else 0) < 2 ^ 16 := by
    split <;> norm_num
  have h3 := Nat.xor_lt_two_pow h1 h2
  simpa using h3

/-- The agitation fields of a simulation step are computed by uncalmStep. -/
theorem updateCandle_uncalm_proj (s : CandleState) :
    ((updateCandle s).uncalm, (updateCandle s).uncalmdir) =
      uncalmStep (s.uncalm, s.uncalmdir) := rfl

/-- The agitation fields after n steps are computed by uncalmIter. -/
theorem steps_uncalm_proj (n : Nat) (s : CandleState) :
    ((steps n s).uncalm, (steps n s).uncalmdir) =
      uncalmIter n (s.uncalm, s.uncalmdir) := by
  induction n generalizing s with
  | zero => rfl
  | succ n ih =>
    show ((steps n (updateCandle s)).uncalm, (steps n (updateCandle s)).uncalmdir) =
      uncalmIter n (uncalmStep (s.uncalm, s.uncalmdir))
    rw [ih, updateCandle_uncalm_proj]

/-- One agitation step preserves the oscillation invariant. -/
theorem uncalmStep_inv {p : Nat × Int} (h : UncalmInv p) : UncalmInv (uncalmStep p) := by
  obtain ⟨hd, h1, h2⟩ := h
  simp only [MINUNCALM, MAXUNCALM] at h1 h2
  simp only [uncalmStep, UncalmInv, u16add, MINUNCALM, MAXUNCALM, UNCALMINC] at *
  rcases hd with hd | hd <;> rw [hd] <;> split_ifs <;> constructor <;> omega

/-- Iterated agitation steps preserve the oscillation invariant. -/
theorem uncalmIter_inv (n : Nat) {p : Nat × Int} (h : UncalmInv p) :
    UncalmInv (uncalmIter n p) := by
  induction n generalizing p with
  | zero => exact h
  | succ n ih => exact ih (uncalmStep_inv h)

/-- After any number of steps from the initial state, the agitation stays
within one increment of the [MINUNCALM, MAXUNCALM] band. -/
theorem uncalmBoundsAll (n : Nat) :
    MINUNCALM - 20 ≤ (steps n initState).uncalm ∧
      (steps n initState).uncalm ≤ MAXUNCALM + 20 := by
  have h0 : UncalmInv (initState.uncalm, initState.uncalmdir) := by
    refine ⟨Or.inl rfl, ?_, ?_⟩ <;> decide
  have h := uncalmIter_inv n h0
  rw [← steps_uncalm_proj] at h
  exact h.2

/-- Closed form of the climbing phase of the agitation oscillation: while
the pre-update value never exceeds MAXUNCALM, each step adds exactly 20. -/
theorem uncalmIter_climb (k : Nat) :
    ∀ u : Nat, 5120 ≤ u → u + 20 * k ≤ 30740 →
      uncalmIter k (u, 20) = (u + 20 * k, 20) := by
  induction k with
  | zero =>
    intro u h1 h2
    simp [uncalmIter]
  | succ k ih =>
    intro u h1 h2
    have hstep : uncalmStep (u, 20) = (u + 20, 20) := by
      simp only [uncalmStep, u16add, MINUNCALM, MAXUNCALM, UNCALMINC,
        Prod.mk.injEq] at h1 h2 ⊢
      split_ifs <;> constructor <;> omega
    calc uncalmIter (k + 1) (u, 20) = uncalmIter k (uncalmStep (u, 20)) := rfl
      _ = uncalmIter k (u + 20, 20) := by rw [hstep]
      _ = (u + 20 + 20 * k, 20) := ih (u + 20) (by omega) (by omega)
      _ = (u + 20 * (k + 1), 20) := by
          rw [Prod.mk.injEq]
          constructor
          · omega
          · rfl

/-- C2 counterexample: starting from the initial state (uncalm = MINUNCALM,
direction +UNCALMINC), the agitation climbs by 20 per tick, reaches 30720
after 1280 steps, and step 1281 pushes it to 30740, outside the claimed
interval [MINUNCALM, MAXUNCALM] = [5120, 30720]. -/
theorem uncalm_invariant_cex :
    (steps 1281 initState).uncalm = 30740 ∧
      ¬ ((steps 1281 initState).uncalm ≤ MAXUNCALM) := by
  have h := steps_uncalm_proj 1281 initState
  have h2 : uncalmIter 1281 (initState.uncalm, initState.uncalmdir) = (30740, 20) := by
    have h5 : initState.uncalm = 5120 := rfl
    have h6 : initState.uncalmdir = 20 := rfl
    rw [h5, h6]
    have hc := uncalmIter_climb 1281 5120 (by omega) (by omega)
    rw [hc]
  rw [h2] at h
  have h4 := congrArg Prod.fst h
  simp only [Prod.fst] at h4
  refine ⟨h4, ?_⟩
  rw [h4]
  decide

/-- C2 (amended): for every number of ticks N, starting from the initial
state, after each of the N physics steps the agitation satisfies
agitation ∈ [MINUNCALM - UNCALMINC, MAXUNCALM + UNCALMINC] = [5100, 30740];
the reversal check uses the pre-update value, so the band overshoots the
[MINUNCALM, MAXUNCALM] interval by at most one increment at either end. -/
theorem uncalm_bounds_amended (n : Nat) :
    MINUNCALM - UNCALMINC.toNat ≤ (steps n initState).uncalm ∧
      (steps n initState).uncalm ≤ MAXUNCALM + UNCALMINC.toNat := uncalmBoundsAll n

/-- C3: in every step the agitation direction flips to +UNCALMINC when the
pre-update agitation is below MINUNCALM and to -UNCALMINC when it is above
MAXUNCALM, and over the whole run from the initial state the agitation
never exceeds MAXUNCALM + UNCALMINC nor falls below MINUNCALM - UNCALMINC. -/
theorem uncalm_reversal_overshoot :
    (∀ s : CandleState, s.uncalm < MINUNCALM →
      (updateCandle s).uncalmdir = UNCALMINC) ∧
    (∀ s : CandleState, s.uncalm > MAXUNCALM →
      (updateCandle s).uncalmdir = -UNCALMINC) ∧
    (∀ n : Nat, MINUNCALM - UNCALMINC.toNat ≤ (steps n initState).uncalm ∧
      (steps n initState).uncalm ≤ MAXUNCALM + UNCALMINC.toNat) := by
  refine ⟨?_, ?_, uncalmBoundsAll⟩
  · intro s h
    have hp : (updateCandle s).uncalmdir = (uncalmStep (s.uncalm, s.uncalmdir)).2 :=
      congrArg Prod.snd (updateCandle_uncalm_proj s)
    rw [hp]
    simp only [uncalmStep, MINUNCALM, MAXUNCALM, UNCALMINC] at *
    split_ifs <;> omega
  · intro s h
    have hp : (updateCandle s).uncalmdir = (uncalmStep (s.uncalm, s.uncalmdir)).2 :=
      congrArg Prod.snd (updateCandle_uncalm_proj s)
    rw [hp]
    simp only [uncalmStep, MINUNCALM, MAXUNCALM, UNCALMINC] at *
    split_ifs <;> omega

/-- C3 witness: the reversal theorem applied at states with agitation 0
(below MINUNCALM) and 40000 (above MAXUNCALM), and the bound after 2 steps. -/
theorem uncalm_reversal_overshoot_witness :
    (updateCandle { initState with uncalm := 0 }).uncalmdir = UNCALMINC ∧
    (updateCandle { initState with uncalm := 40000 }).uncalmdir = -UNCALMINC ∧
    MINUNCALM - UNCALMINC.toNat ≤ (steps 2 initState).uncalm :=
  ⟨uncalm_reversal_overshoot.1 { initState with uncalm := 0 } (by decide),
   uncalm_reversal_overshoot.2.1 { initState with uncalm := 40000 } (by decide),
   (uncalm_reversal_overshoot.2.2 2).1⟩

/-- C1: after every call to the physics step the flame center coordinates
lie in [-MAXDEV, MAXDEV] = [-100, 100], the emitted duty values OCR0A and
OCR0B equal 155 + centerx and 155 + centery and therefore lie in [55, 255];
and the clamp saturates: from a coordinate inside the band, a one-tick poke
larger than 2 * MAXDEV lands exactly on +MAXDEV (resp. below -2 * MAXDEV on
-MAXDEV), never a wrapped-around value. -/
theorem updateCandle_center_duty_clamped :
    (∀ s : CandleState,
      -MAXDEV ≤ (updateCandle s).centerx ∧ (updateCandle s).centerx ≤ MAXDEV ∧
      -MAXDEV ≤ (updateCandle s).centery ∧ (updateCandle s).centery ≤ MAXDEV ∧
      ((updateCandle s).ocr0a : Int) = 155 + (updateCandle s).centerx ∧
      ((updateCandle s).ocr0b : Int) = 155 + (updateCandle s).centery ∧
      55 ≤ (updateCandle s).ocr0a ∧ (updateCandle s).ocr0a ≤ 255 ∧
      55 ≤ (updateCandle s).ocr0b ∧ (updateCandle s).ocr0b ≤ 255) ∧
    (∀ c p : Int, -MAXDEV ≤ c → c ≤ MAXDEV → -8447 ≤ p → p ≤ 8447 →
      (2 * MAXDEV < p → clampDev (i16 (c + p)) = MAXDEV) ∧
      (p < -(2 * MAXDEV) → clampDev (i16 (c + p)) = -MAXDEV)) := by
  constructor
  · intro s
    obtain ⟨vx, hvx⟩ : ∃ v, (updateCandle s).centerx = clampDev v := ⟨_, rfl⟩
    obtain ⟨vy, hvy⟩ : ∃ v, (updateCandle s).centery = clampDev v := ⟨_, rfl⟩
    have ha : (updateCandle s).ocr0a =
        ((155 + (updateCandle s).centerx) % 256).toNat := rfl
    have hb : (updateCandle s).ocr0b =
        ((155 + (updateCandle s).centery) % 256).toNat := rfl
    have hxm := clampDev_mem vx
    have hym := clampDev_mem vy
    rw [← hvx] at hxm
    rw [← hvy] at hym
    simp only [MAXDEV] at hxm hym ⊢
    rw [ha, hb]
    omega
  · intro c p h1 h2 h3 h4
    constructor
    · intro h5
      have he : i16 (c + p) = c + p :=
        i16_eq_self (by simp only [MAXDEV] at *; omega)
          (by simp only [MAXDEV] at *; omega)
      rw [he]
      apply clampDev_high
      simp only [MAXDEV] at *
      omega
    · intro h5
      have he : i16 (c + p) = c + p :=
        i16_eq_self (by simp only [MAXDEV] at *; omega)
          (by simp only [MAXDEV] at *; omega)
      rw [he]
      apply clampDev_low
      simp only [MAXDEV] at *
      omega

/-- C1 witness: the theorem instantiated at the initial state and at the
concrete clamp inputs c = 100, p = 300 and c = 0, p = -300. -/
theorem updateCandle_center_duty_clamped_witness :
    -MAXDEV ≤ (updateCandle initState).centerx ∧
    clampDev (i16 (100 + 300)) = MAXDEV ∧
    clampDev (i16 (0 + (-300))) = -MAXDEV :=
  ⟨(updateCandle_center_duty_clamped.1 initState).1,
   (updateCandle_center_duty_clamped.2 100 300 (by decide) (by decide) (by decide)
     (by decide)).1 (by decide),
   (updateCandle_center_duty_clamped.2 0 (-300) (by decide) (by decide) (by decide)
     (by decide)).2 (by decide)⟩

/-- C4: one prng call advances the register by exactly one Galois shift
(shift right one bit, xor with 0xB400 iff the shifted-out bit was 1, no
other masking) and returns (maxvalue * advanced register) >> 16, a value in
[0, maxvalue), for every 16-bit register and 1 <= maxvalue <= 65535. -/
theorem prng_galois_bounded (maxvalue rn : Nat) (hrn : rn < 65536)
    (h1 : 1 ≤ maxvalue) (h2 : maxvalue ≤ 65535) :
    (prng maxvalue rn).2 = (rn >>> 1) ^^^ (if rn &&& 1 = 1 then 0xB400 else 0) ∧
    (prng maxvalue rn).1 = (maxvalue * (prng maxvalue rn).2) >>> 16 ∧
    (prng maxvalue rn).1 < maxvalue := by
  have hsnd : (prng maxvalue rn).2 = lfsrNext rn := rfl
  have hfst : (prng maxvalue rn).1 =
      ((maxvalue * lfsrNext rn % 4294967296) >>> 16) % 65536 := rfl
  have hlt : lfsrNext rn < 65536 := lfsrNext_lt hrn
  have hprod : maxvalue * lfsrNext rn < 4294967296 := by
    calc maxvalue * lfsrNext rn ≤ 65535 * 65535 := Nat.mul_le_mul h2 (by omega)
      _ < 4294967296 := by norm_num
  have hmod : maxvalue * lfsrNext rn % 4294967296 = maxvalue * lfsrNext rn :=
    Nat.mod_eq_of_lt hprod
  have hshift : (maxvalue * lfsrNext rn) >>> 16 = maxvalue * lfsrNext rn / 65536 := by
    rw [Nat.shiftRight_eq_div_pow]
  have hdiv : maxvalue * lfsrNext rn / 65536 < maxvalue := by
    rw [Nat.div_lt_iff_lt_mul (by norm_num : (0 : Nat) < 65536)]
    exact mul_lt_mul_of_pos_left hlt (by omega)
  have hv : (prng maxvalue rn).1 = maxvalue * lfsrNext rn / 65536 := by
    rw [hfst, hmod, hshift]
    exact Nat.mod_eq_of_lt (by omega)
  refine ⟨rfl, ?_, ?_⟩
  · rw [hv, hsnd, hshift]
  · rw [hv]
    exact hdiv

/-- C4 witness: the prng contract applied at register 1 and bound 20. -/
theorem prng_galois_bounded_witness :
    (prng 20 1).2 = (1 >>> 1) ^^^ (if 1 &&& 1 = 1 then 0xB400 else 0) ∧
    (prng 20 1).1 = (20 * (prng 20 1).2) >>> 16 ∧
    (prng 20 1).1 < 20 :=
  prng_galois_bounded 20 1 (by decide) (by decide) (by decide)

/-- C5: with the register equal to 1, one call with bound 20 (which is
MINUNCALM >> 8) shifts 1 right to 0, xors with 0xB400 because the
shifted-out bit was 1, leaving the register at 0xB400, and returns
(20 * 0xB400) >> 16 = 14. -/
theorem prng_seed_one_example :
    prng (MINUNCALM >>> 8) 1 = (14, 0xB400) ∧ MINUNCALM >>> 8 = 20 ∧
    (20 * 0xB400) >>> 16 = 14 := by decide

/-- C6: each step increments the tick counter modulo 256; the velocities
pass through the attenuation stage exactly when the incremented counter is
divisible by 4 and are left unscaled by that stage otherwise; in both cases
the spring force (subtracting the new clamped center) is applied afterward,
in 16-bit arithmetic. -/
theorem damping_cadence_spring (s : CandleState) :
    (updateCandle s).cnt = (s.cnt + 1) % 256 ∧
    ((updateCandle s).cnt % 4 = 0 →
      (updateCandle s).xvel = i16 (dampVal s.xvel - (updateCandle s).centerx) ∧
      (updateCandle s).yvel = i16 (dampVal s.yvel - (updateCandle s).centery)) ∧
    (¬ (updateCandle s).cnt % 4 = 0 →
      (updateCandle s).xvel = i16 (s.xvel - (updateCandle s).centerx) ∧
      (updateCandle s).yvel = i16 (s.yvel - (updateCandle s).centery)) := by
  have hc : (updateCandle s).cnt = (s.cnt + 1) % 256 := rfl
  have hand : ((s.cnt + 1) % 256) &&& 3 = ((s.cnt + 1) % 256) % 4 := by
    have h := Nat.and_pow_two_sub_one_eq_mod ((s.cnt + 1) % 256) 2
    norm_num at h ⊢
    exact h
  have hx : (updateCandle s).xvel =
      i16 ((if ((s.cnt + 1) % 256) &&& 3 = 0 then dampVal s.xvel else s.xvel)
        - (updateCandle s).centerx) := rfl
  have hy : (updateCandle s).yvel =
      i16 ((if ((s.cnt + 1) % 256) &&& 3 = 0 then dampVal s.yvel else s.yvel)
        - (updateCandle s).centery) := rfl
  refine ⟨hc, ?_, ?_⟩
  · intro h
    rw [hc, ← hand] at h
    constructor
    · rw [hx, if_pos h]
    · rw [hy, if_pos h]
  · intro h
    rw [hc, ← hand] at h
    constructor
    · rw [hx, if_neg h]
    · rw [hy, if_neg h]

/-- C6 witness: at the initial state (counter becomes 1) the attenuation
stage is skipped, and three steps later (counter becomes 4) it is applied. -/
theorem damping_cadence_spring_witness :
    (updateCandle initState).cnt = (initState.cnt + 1) % 256 ∧
    (updateCandle initState).xvel =
      i16 (initState.xvel - (updateCandle initState).centerx) ∧
    (updateCandle (steps 3 initState)).xvel =
      i16 (dampVal (steps 3 initState).xvel -
        (updateCandle (steps 3 initState)).centerx) :=
  ⟨(damping_cadence_spring initState).1,
   ((damping_cadence_spring initState).2.2 (by decide)).1,
   ((damping_cadence_spring (steps 3 initState)).2.1 (by decide)).1⟩

/-- C7 counterexample: the velocity -157 is reachable (it is xvel three
steps from boot, just before a tick whose incremented counter is divisible
by 4, so the attenuation is applied to it on the fourth step); the product
-157 * 999 = -156843 overflows int16_t and wraps to -25771, so the code
computes -25771 / 1000 = -25 instead of the exact truncating quotient
(-157 * 999) / 1000 = -156. -/
theorem damp_overflow_cex :
    (steps 3 initState).xvel = -157 ∧
    ((steps 3 initState).cnt + 1) % 256 % 4 = 0 ∧
    dampVal (-157) = -25 ∧
    Int.tdiv ((-157 : Int) * 999) 1000 = -156 ∧
    ¬ dampVal (-157) = Int.tdiv ((-157 : Int) * 999) 1000 := by decide

/-- C7 (amended): each attenuation application computes (v * 999) / 1000 in
16-bit signed arithmetic, so the intermediate product wraps modulo 2^16;
the result equals the exact truncating quotient (v * 999) / 1000 precisely
on the inputs where the product stays representable, namely |v| <= 32, and
reachable velocities (for example -157, three steps from boot) exceed that
range, where the wrapped result differs. -/
theorem dampVal_exact_small (v : Int) (h1 : -32 ≤ v) (h2 : v ≤ 32) :
    dampVal v = Int.tdiv (v * 999) 1000 := by
  unfold dampVal
  rw [i16_eq_self (by omega : -32768 ≤ v * 999) (by omega : v * 999 < 32768)]

/-- C7 witness: the amended theorem applied at v = 32. -/
theorem dampVal_exact_small_witness :
    dampVal 32 = Int.tdiv ((32 : Int) * 999) 1000 :=
  dampVal_exact_small 32 (by decide) (by decide)

/-- C8: the register value 0 is a fixed point of the LFSR update, every
call from register 0 returns 0 for every bound and leaves the register 0;
the file-scope register is zero-initialized, so the register stays 0 over
any number of simulation steps from boot, and with register 0 each random
poke prng(uncalm >> 8) - (uncalm >> 9) degenerates to the constant
-(uncalm >> 9). -/
theorem prng_zero_degenerate :
    lfsrNext 0 = 0 ∧
    (∀ m : Nat, prng m 0 = (0, 0)) ∧
    initState.rn = 0 ∧
    (∀ (n : Nat) (s : CandleState), s.rn = 0 → (steps n s).rn = 0) ∧
    (∀ u : Nat, u < 65536 →
      i16 (((prng (u >>> 8) 0).1 : Int) - ((u >>> 9 : Nat) : Int)) =
        -((u >>> 9 : Nat) : Int)) := by
  have hl : lfsrNext 0 = 0 := rfl
  have hp : ∀ m : Nat, prng m 0 = (0, 0) := by
    intro m
    show (((m * lfsrNext 0 % 4294967296) >>> 16) % 65536, lfsrNext 0) = (0, 0)
    rw [hl]
    simp
  refine ⟨hl, hp, rfl, ?_, ?_⟩
  · intro n
    induction n with
    | zero => intro s h; exact h
    | succ n ih =>
      intro s h
      have hr : (updateCandle s).rn = lfsrNext (lfsrNext s.rn) := rfl
      have h2 : (updateCandle s).rn = 0 := by rw [hr, h, hl, hl]
      exact ih (updateCandle s) h2
  · intro u hu
    have h0 : (prng (u >>> 8) 0).1 = 0 := by rw [hp]
    rw [h0]
    have hq : u >>> 9 = u / 512 := by
      rw [Nat.shiftRight_eq_div_pow]
    rw [hq]
    rw [i16_eq_self (by omega) (by omega)]
    omega

/-- C8 witness: the degenerate behaviour evaluated after 5 boot steps, at
bound 20, and at agitation 5120. -/
theorem prng_zero_degenerate_witness :
    (steps 5 initState).rn = 0 ∧ prng 20 0 = (0, 0) ∧
    i16 (((prng (5120 >>> 8) 0).1 : Int) - ((5120 >>> 9 : Nat) : Int)) = -10 := by
  refine ⟨prng_zero_degenerate.2.2.2.1 5 initState rfl,
    prng_zero_degenerate.2.1 20, ?_⟩
  have h := prng_zero_degenerate.2.2.2.2 5120 (by decide)
  rw [h]
  decide

/-- C9: the simulation is a pure function of the state, so two runs of any
length from an identical PRNG register and identical flame state produce
identical duty sequences; the register threading shows the X poke draw
advances the shared register first and the Y poke draw uses the advanced
register. -/
theorem run_deterministic (n : Nat) (s t : CandleState) (h : s = t) :
    dutyTrace n s = dutyTrace n t ∧
    (prng (s.uncalm >>> 8) s.rn).2 = lfsrNext s.rn ∧
    (updateCandle s).rn = lfsrNext ((prng (s.uncalm >>> 8) s.rn).2) := by
  subst h
  exact ⟨rfl, rfl, rfl⟩

/-- C9 witness: determinism and draw order at the initial state, 3 ticks. -/
theorem run_deterministic_witness :
    dutyTrace 3 initState = dutyTrace 3 initState ∧
    (prng (initState.uncalm >>> 8) initState.rn).2 = lfsrNext initState.rn ∧
    (updateCandle initState).rn =
      lfsrNext ((prng (initState.uncalm >>> 8) initState.rn).2) :=
  run_deterministic 3 initState initState rfl

/-- C10: the button-press branch of the main loop (outputs off, debounce
and release waits, sleep, outputs on, debounce and release wait) leaves the
entire simulation state - flame position, velocities, agitation and its
direction, tick counter and PRNG register - unchanged, so the first tick
after wake computes from the preserved state. -/
theorem buttonBranch_preserves_sim (d : Device) :
    (buttonBranch d).sim = d.sim ∧
    updateCandle (buttonBranch d).sim = updateCandle d.sim :=
  ⟨rfl, rfl⟩

end TinyCandle
